import Mathlib

/-!
Verification development for the withinFlo job-lifecycle engine and
test-case reconstruction parser.

The definitions below are a shallow embedding of the TypeScript source:

* `getProgressPercentage` embeds the progress model of the
  ProgressTracker component (src/unnamed/part_004, lines 72-106).
  JavaScript number arithmetic on the values involved (integers scaled by
  0.25 and shifted by 25/50/75) is exact, so rationals are a faithful
  carrier.
* `pollStep` / `pollRun` embed the polling useEffect of the Home
  component (src/frontend/my-app/app/page.tsx, lines 19-52): one tick
  consumes one observation of the backend status endpoint; the effect
  guard (no interval is installed once the local status is completed or
  failed) makes a terminal local status absorbing.
* `storeResults` embeds the fetchResults success path
  (src/frontend/my-app/app/page.tsx, lines 115-136).
* `spuParseTestCases` and `tcvParseTestCases` embed the two
  parseTestCases implementations (the TestCaseViewer concatenated into
  src/frontend/my-app/app/components/ScanProgressUI.tsx, lines 301-388,
  and the TestCaseViewer in src/unnamed/part_005, lines 760-935).  Text
  is `List Char`; each JavaScript regular expression is translated into
  a deterministic matcher that reproduces the engine's
  greedy/lazy/backtracking behaviour for that particular pattern
  (justified pattern by pattern in the comments).  Note that part_005
  builds several of its regexes with `new RegExp("...")` from ordinary
  string literals in which the two-character sequence backslash-s inside
  a character class collapses to the letter `s`, so the intended class
  `[\s\S]` (any character) becomes the literal class `[sS]`; the
  embedding reproduces this faithfully (`clsSmall`).
-/

/-! ## Job status vocabulary and the progress model (src/unnamed/part_004) -/

/-- Status vocabulary of the ProgressTracker component:
`type Status = 'pending' | 'crawling' | 'analyzing' | 'generating' | 'completed' | 'failed'`. -/
inductive Status where
  | pending
  | crawling
  | analyzing
  | generating
  | completed
  | failed
deriving DecidableEq, Repr

/-- Embedding of getProgressPercentage (src/unnamed/part_004, lines 72-106).
The component receives the job status and a progress object carrying
current_phase and phase_progress; the failed branch switches on
progress.current_phase, all other branches ignore it. -/
def getProgressPercentage (status : Status) (current_phase : Status)
    (phase_progress : ℚ) : ℚ :=
  match status with
  | .pending => 25
  | .crawling => 25 + phase_progress * 0.25
  | .analyzing => 50 + phase_progress * 0.25
  | .generating => 75 + phase_progress * 0.25
  | .completed => 100
  | .failed =>
    match current_phase with
    | .pending => min 25 phase_progress
    | .crawling => min 50 (25 + phase_progress * 0.25)
    | .analyzing => min 75 (50 + phase_progress * 0.25)
    | .generating => min 100 (75 + phase_progress * 0.25)
    | _ => phase_progress

/-- Band ceiling of each non-terminal phase (25/50/75/100), as used by the
Math.min clips in the failed branch of getProgressPercentage. -/
def bandCeiling : Status → ℚ
  | .pending => 25
  | .crawling => 50
  | .analyzing => 75
  | .generating => 100
  | .completed => 100
  | .failed => 100

/-! ## Observed job snapshots and the advancement discipline (for the
monotonicity property) -/

/-- One polled snapshot of a job: the reported status, the last-known
phase recorded in the progress object, and the intra-phase progress. -/
structure Obs where
  status : Status
  current_phase : Status
  phase_progress : ℚ
deriving DecidableEq

/-- Overall percentage reported for one snapshot. -/
def report (o : Obs) : ℚ :=
  getProgressPercentage o.status o.current_phase o.phase_progress

/-- Position of a status along the forward chain
pending, crawling, analyzing, generating, completed. -/
def statusIdx : Status → ℕ
  | .pending => 0
  | .crawling => 1
  | .analyzing => 2
  | .generating => 3
  | .completed => 4
  | .failed => 5

/-- Legal advancement between two successive snapshots of one job, as
described by the spec's state machine: both progress values lie in
[0,100]; either both snapshots are non-failed and the status moves
forward along the chain (progress non-decreasing while the status is
unchanged), or the job fails out of a non-terminal status (the failed
snapshot records that status as current_phase with a progress value at
least the one last seen), or the job was already failed and the snapshot
is frozen. -/
def Advances (o1 o2 : Obs) : Prop :=
  (0 ≤ o1.phase_progress ∧ o1.phase_progress ≤ 100 ∧
    0 ≤ o2.phase_progress ∧ o2.phase_progress ≤ 100) ∧
  ((o1.status ≠ .failed ∧ o2.status ≠ .failed ∧
      statusIdx o1.status ≤ statusIdx o2.status ∧
      (o1.status = o2.status → o1.phase_progress ≤ o2.phase_progress)) ∨
   (o2.status = .failed ∧ o1.status ≠ .failed ∧ o1.status ≠ .completed ∧
      o2.current_phase = o1.status ∧ o1.phase_progress ≤ o2.phase_progress) ∨
   (o1.status = .failed ∧ o2 = o1))

instance (o1 o2 : Obs) : Decidable (Advances o1 o2) := by
  unfold Advances; infer_instance

/-- Advancement with failure out of the pending phase excluded: this is
the restriction under which the reported percentage is monotone (a
failure while pending reports min 25 phase_progress, which can be below
the flat 25 shown while pending). -/
def AdvancesSafe (o1 o2 : Obs) : Prop :=
  Advances o1 o2 ∧ (o2.status = .failed → o1.status ≠ .pending)

/-! ## Polling coordinator (src/frontend/my-app/app/page.tsx, lines 19-52) -/

/-- Status vocabulary used by the Home page component:
useState of 'pending' | 'processing' | 'completed' | 'failed'. -/
inductive PollStatus where
  | pending
  | processing
  | completed
  | failed
deriving DecidableEq, Repr

/-- Local state held by the Home component that the polling effect
mutates: the status, the flat progress number, the number of log entries
appended so far (log text carries a wall-clock timestamp, which the
embedding abstracts to a count), the error message, and the number of
results fetches triggered. -/
structure PollState where
  status : PollStatus
  progress : ℕ
  logCount : ℕ
  error : Option (List Char)
  resultsFetches : ℕ
deriving DecidableEq

/-- A poll tick either delivers the backend's status payload (with its
optional error field) or fails with a transport error. -/
inductive PollTick where
  | ok (s : PollStatus) (err : Option (List Char))
  | fail
deriving DecidableEq

/-- Whether the local status is terminal; the polling useEffect returns
early (installs no interval) exactly in this case. -/
def pollTerminal (s : PollStatus) : Bool :=
  s = PollStatus.completed || s = PollStatus.failed

/-- Default error message from the failed branch:
setError(data.error || 'Analysis failed'). -/
def analysisFailedMsg : List Char := "Analysis failed".data

/-- One polling tick of the useEffect body (page.tsx lines 22-49).  If
the local status is terminal no interval exists, so the state is
unchanged.  Otherwise a transport failure only logs; a successful fetch
stores the new status, updates the flat progress number per branch,
logs, triggers the results fetch on completed, and records the error on
failed. -/
def pollStep (st : PollState) (t : PollTick) : PollState :=
  if pollTerminal st.status then st
  else
    match t with
    | .fail => { st with logCount := st.logCount + 1 }
    | .ok s err =>
      match s with
      | .pending =>
        { st with status := s, progress := 10, logCount := st.logCount + 1 }
      | .processing =>
        { st with status := s, progress := 50, logCount := st.logCount + 1 }
      | .completed =>
        { st with status := s, progress := 100, logCount := st.logCount + 1,
                  resultsFetches := st.resultsFetches + 1 }
      | .failed =>
        { st with status := s, progress := 100, logCount := st.logCount + 1,
                  error := some (err.getD analysisFailedMsg) }

/-- A run of the polling loop over a sequence of ticks. -/
def pollRun (st : PollState) (ts : List PollTick) : PollState :=
  ts.foldl pollStep st

/-- Status component of one tick, used to reason about runs that differ
only in logged data. -/
def pollStatusStep (s : PollStatus) (t : PollTick) : PollStatus :=
  if pollTerminal s then s
  else match t with
       | .fail => s
       | .ok s' _ => s'

theorem pollStep_status (st : PollState) (t : PollTick) :
    (pollStep st t).status = pollStatusStep st.status t := by
  unfold pollStep pollStatusStep
  by_cases h : pollTerminal st.status
  · simp [h]
  · cases t with
    | fail => simp [h]
    | ok s err => cases s <;> simp [h]

theorem pollRun_status (st : PollState) (ts : List PollTick) :
    (pollRun st ts).status = ts.foldl pollStatusStep st.status := by
  induction ts generalizing st with
  | nil => rfl
  | cons t ts ih =>
    simp only [pollRun, List.foldl_cons]
    rw [← pollRun, ih, pollStep_status]

/-! ## Results fetching (src/frontend/my-app/app/page.tsx, lines 115-136) -/

/-- Minimal JSON value type for the results payload's json field. -/
inductive JsonValue where
  | null
  | boolean (b : Bool)
  | number (q : ℚ)
  | string (s : List Char)
  | array (elems : List JsonValue)
  | object (fields : List (List Char × JsonValue))

/-- JavaScript falsiness of a JSON value (null, false, 0, and the empty
string are falsy; every object and array is truthy). -/
def jsFalsy : JsonValue → Bool
  | .null => true
  | .boolean b => !b
  | .number q => q = 0
  | .string s => s.isEmpty
  | .array _ => false
  | .object _ => false

/-- Body decoded from a successful results response: the markdown field
may be absent (none) or present, the json field likewise. -/
structure ResultsPayload where
  markdown : Option (List Char)
  json : Option JsonValue

/-- Results state stored by setResults. -/
structure StoredResults where
  markdown : List Char
  json : JsonValue

/-- Sentinel markdown installed when the payload's markdown is falsy. -/
def noTestCasesMsg : List Char := "# No test cases generated".data

/-- Embedding of the setResults call in fetchResults (page.tsx lines
126-129): markdown := data.markdown || '# No test cases generated',
json := data.json || an empty object.  An absent field is falsy, a
present string field is falsy exactly when empty, a present json field
is falsy per jsFalsy. -/
def storeResults (p : ResultsPayload) : StoredResults :=
  { markdown :=
      match p.markdown with
      | some m => if m = [] then noTestCasesMsg else m
      | none => noTestCasesMsg
    json :=
      match p.json with
      | some j => if jsFalsy j then JsonValue.object [] else j
      | none => JsonValue.object [] }

/-! ## Lemmas about the progress model -/

lemma quarter_eq : (0.25 : ℚ) = 1 / 4 := by norm_num

lemma report_mono_step (o1 o2 : Obs) (h : AdvancesSafe o1 o2) :
    report o1 ≤ report o2 := by
  obtain ⟨⟨⟨hb1, hb2, hb3, hb4⟩, hcase⟩, hpend⟩ := h
  rcases hcase with ⟨h1, h2, hidx, hsame⟩ | ⟨h2, h1, hc, hcur, hpp⟩ | ⟨h1, h2⟩
  · cases hs1 : o1.status <;> cases hs2 : o2.status <;>
      simp_all [report, getProgressPercentage, statusIdx, quarter_eq] <;>
      linarith
  · rw [report, report, h2, hcur]
    cases hs1 : o1.status <;>
      simp_all [getProgressPercentage, quarter_eq, le_min_iff] <;>
      first
      | (constructor <;> linarith)
      | linarith
  · simp [h2]

/-! ## Lemmas about the polling model -/

lemma pollStatusStep_fail (s : PollStatus) : pollStatusStep s .fail = s := by
  unfold pollStatusStep
  by_cases h : pollTerminal s <;> simp [h]

/-- Invariant tying the number of triggered results fetches to the local
status, for runs started in a non-terminal state with no fetch yet. -/
def pollInv (st : PollState) : Prop :=
  (pollTerminal st.status = false ∧ st.resultsFetches = 0) ∨
  (st.status = .completed ∧ st.resultsFetches = 1) ∨
  (st.status = .failed ∧ st.resultsFetches = 0)

lemma pollInv_step (st : PollState) (t : PollTick) (h : pollInv st) :
    pollInv (pollStep st t) := by
  rcases h with ⟨hnt, hf⟩ | ⟨hs, hf⟩ | ⟨hs, hf⟩
  · unfold pollStep
    rw [hnt]
    simp only [Bool.false_eq_true, if_false]
    cases t with
    | fail => exact Or.inl ⟨hnt, hf⟩
    | ok s err =>
      cases s
      · exact Or.inl ⟨by simp [pollTerminal], hf⟩
      · exact Or.inl ⟨by simp [pollTerminal], hf⟩
      · exact Or.inr (Or.inl ⟨rfl, by simp [hf]⟩)
      · exact Or.inr (Or.inr ⟨rfl, hf⟩)
  · unfold pollStep
    have : pollTerminal st.status = true := by simp [pollTerminal, hs]
    rw [this]
    simp only [if_true]
    exact Or.inr (Or.inl ⟨hs, hf⟩)
  · unfold pollStep
    have : pollTerminal st.status = true := by simp [pollTerminal, hs]
    rw [this]
    simp only [if_true]
    exact Or.inr (Or.inr ⟨hs, hf⟩)

lemma pollInv_run (st : PollState) (ts : List PollTick) (h : pollInv st) :
    pollInv (pollRun st ts) := by
  induction ts generalizing st with
  | nil => exact h
  | cons t ts ih =>
    simp only [pollRun, List.foldl_cons]
    exact ih _ (pollInv_step st t h)

lemma pollStep_terminal (st : PollState) (t : PollTick)
    (h : pollTerminal st.status = true) : pollStep st t = st := by
  unfold pollStep
  rw [h]
  simp

/-! ## Claim C2: reported percentage of a failed job -/

/-- Claim C2, counterexample to the claim as stated.  The claim says a
failed job never reports 100, but getProgressPercentage applied to a job
that failed during generating with phase_progress 100 reports exactly
100 (the clip min 100 (75 + 100 * 0.25) is the identity there). -/
theorem failed_generating_full_reports_100 :
    getProgressPercentage .failed .generating 100 = 100 := by
  norm_num [getProgressPercentage]

/-- Claim C2, amended.  For a job that failed during crawling, analyzing
or generating, the reported percentage is the last-known phase's live
percentage clipped to that phase's band ceiling, hence at most the
ceiling; a failure during pending instead reports the raw phase_progress
clipped to 25 (not the flat 25 the live pending phase shows); a failure
before generating therefore never reports 100, but a failure during
generating reports 100 exactly when phase_progress is 100; the
analyzing/40 scenario reports exactly 60. -/
theorem failed_reports_clipped_band (pp : ℚ) (h0 : 0 ≤ pp) (h100 : pp ≤ 100) :
    (∀ cur : Status, cur = .crawling ∨ cur = .analyzing ∨ cur = .generating →
        getProgressPercentage .failed cur pp =
          min (bandCeiling cur) (getProgressPercentage cur cur pp)) ∧
    getProgressPercentage .failed .pending pp = min 25 pp ∧
    getProgressPercentage .failed .pending pp < 100 ∧
    getProgressPercentage .failed .crawling pp < 100 ∧
    getProgressPercentage .failed .analyzing pp < 100 ∧
    (getProgressPercentage .failed .generating pp = 100 ↔ pp = 100) ∧
    getProgressPercentage .failed .analyzing 40 = 60 := by
  refine ⟨?_, rfl, ?_, ?_, ?_, ?_, by norm_num [getProgressPercentage]⟩
  · rintro cur (rfl | rfl | rfl) <;> rfl
  · calc getProgressPercentage .failed .pending pp ≤ 25 := min_le_left _ _
      _ < 100 := by norm_num
  · calc getProgressPercentage .failed .crawling pp ≤ 50 := min_le_left _ _
      _ < 100 := by norm_num
  · calc getProgressPercentage .failed .analyzing pp ≤ 75 := min_le_left _ _
      _ < 100 := by norm_num
  · simp only [getProgressPercentage, quarter_eq]
    constructor
    · intro h
      by_contra hne
      have hlt : pp < 100 := lt_of_le_of_ne h100 hne
      have : min (100 : ℚ) (75 + pp * (1 / 4)) ≤ 75 + pp * (1 / 4) :=
        min_le_right _ _
      rw [h] at this
      linarith
    · rintro rfl
      norm_num

/-- Witness for failed_reports_clipped_band at phase_progress 40. -/
theorem failed_reports_clipped_band_witness :
    (0 : ℚ) ≤ 40 ∧ (40 : ℚ) ≤ 100 ∧
      getProgressPercentage .failed .analyzing 40 = 60 :=
  ⟨by norm_num, by norm_num,
    (failed_reports_clipped_band 40 (by norm_num) (by norm_num)).2.2.2.2.2.2⟩

/-! ## Claim C3: band mapping of the non-terminal phases -/

/-- Claim C3, counterexample to the claim as stated.  The claim assigns
pending the band start 0 and the formula 0 + phase_progress * 0.25, but
getProgressPercentage returns the constant 25 for pending: at
phase_progress 0 the claim demands 0 while the code reports 25. -/
theorem pending_reports_constant_25 :
    getProgressPercentage .pending .pending 0 = 25 ∧
      (25 : ℚ) ≠ 0 + 0 * 0.25 := by
  constructor
  · rfl
  · norm_num

/-- Claim C3, amended.  For crawling, analyzing and generating the
overall percentage is bandStart + phase_progress * 0.25 and lies inside
the phase's 25-point band; pending instead reports the constant 25 (its
band ceiling) regardless of phase_progress; completed reports exactly
100. -/
theorem nonterminal_band_formula (cur : Status) (pp : ℚ)
    (h0 : 0 ≤ pp) (h100 : pp ≤ 100) :
    getProgressPercentage .pending cur pp = 25 ∧
    (getProgressPercentage .crawling cur pp = 25 + pp * 0.25 ∧
      25 ≤ getProgressPercentage .crawling cur pp ∧
      getProgressPercentage .crawling cur pp ≤ 50) ∧
    (getProgressPercentage .analyzing cur pp = 50 + pp * 0.25 ∧
      50 ≤ getProgressPercentage .analyzing cur pp ∧
      getProgressPercentage .analyzing cur pp ≤ 75) ∧
    (getProgressPercentage .generating cur pp = 75 + pp * 0.25 ∧
      75 ≤ getProgressPercentage .generating cur pp ∧
      getProgressPercentage .generating cur pp ≤ 100) ∧
    getProgressPercentage .completed cur pp = 100 := by
  refine ⟨rfl, ⟨rfl, ?_, ?_⟩, ⟨rfl, ?_, ?_⟩, ⟨rfl, ?_, ?_⟩, rfl⟩ <;>
    simp only [getProgressPercentage, quarter_eq] <;> linarith

/-- Witness for nonterminal_band_formula at phase_progress 40. -/
theorem nonterminal_band_formula_witness :
    (0 : ℚ) ≤ 40 ∧ (40 : ℚ) ≤ 100 ∧
      getProgressPercentage .crawling .pending 40 = 25 + 40 * 0.25 :=
  ⟨by norm_num, by norm_num,
    (nonterminal_band_formula .pending 40 (by norm_num) (by norm_num)).2.1.1⟩

/-! ## Claim C5: monotonicity of the reported percentage -/

/-- Claim C5, counterexample to the claim as stated.  A job that is
pending (reported as the flat 25) and then fails while still pending
with phase_progress 0 satisfies the claim's advancement hypotheses, yet
the reported percentage drops from 25 to min 25 0 = 0 rather than
freezing. -/
theorem pending_failure_drops_report :
    Advances ⟨.pending, .pending, 0⟩ ⟨.failed, .pending, 0⟩ ∧
      report ⟨.failed, .pending, 0⟩ < report ⟨.pending, .pending, 0⟩ := by
  constructor
  · refine ⟨⟨le_refl 0, by norm_num, le_refl 0, by norm_num⟩, Or.inr (Or.inl ?_)⟩
    exact ⟨rfl, by simp, by simp, rfl, le_refl 0⟩
  · show getProgressPercentage .failed .pending 0 <
      getProgressPercentage .pending .pending 0
    norm_num [getProgressPercentage]

/-- Claim C5, amended.  Along any trace whose successive snapshots obey
the advancement discipline and in which no failure happens during the
pending phase, the reported percentages are monotone (pairwise
non-decreasing); moreover a failure out of crawling, analyzing or
generating with unchanged phase_progress freezes the reported value
exactly.  (A failure during pending reports min 25 phase_progress and
can drop below the flat 25 shown while pending, which is why that case
is excluded.) -/
theorem report_monotone_traces :
    (∀ l : List Obs, List.Chain' AdvancesSafe l →
        List.Pairwise (· ≤ ·) (l.map report)) ∧
    (∀ o1 o2 : Obs, Advances o1 o2 → o2.status = .failed →
        o1.status ≠ .pending → o1.phase_progress = o2.phase_progress →
        report o2 = report o1) := by
  constructor
  · intro l hl
    have h1 : List.Chain' (· ≤ ·) (l.map report) :=
      List.chain'_map_of_chain' report
        (fun a b hab => report_mono_step a b hab) hl
    exact List.chain'_iff_pairwise.mp h1
  · intro o1 o2 ⟨⟨hb1, hb2, hb3, hb4⟩, hcase⟩ hfail hpend hppeq
    rcases hcase with ⟨h1, h2, _, _⟩ | ⟨h2, h1, hc, hcur, hpp⟩ | ⟨h1, h2⟩
    · exact absurd hfail h2
    · rw [report, report, hfail, hcur, ← hppeq]
      cases hs1 : o1.status <;> simp_all [getProgressPercentage, quarter_eq] <;>
        linarith
    · simp [h2]

/-- Witness for report_monotone_traces on a concrete trace that crawls,
analyzes and then fails during analyzing with frozen progress. -/
theorem report_monotone_traces_witness :
    List.Pairwise (· ≤ ·)
      (([⟨.pending, .pending, 0⟩, ⟨.crawling, .crawling, 60⟩,
         ⟨.analyzing, .analyzing, 40⟩, ⟨.failed, .analyzing, 40⟩] :
        List Obs).map report) ∧
    report ⟨.failed, .analyzing, 40⟩ = report ⟨.analyzing, .analyzing, 40⟩ := by
  constructor
  · refine report_monotone_traces.1 _ ?_
    refine List.chain'_cons.mpr ⟨?_, List.chain'_cons.mpr ⟨?_, List.chain'_cons.mpr ⟨?_, List.chain'_singleton _⟩⟩⟩
    · exact ⟨⟨⟨by norm_num, by norm_num, by norm_num, by norm_num⟩,
        Or.inl ⟨by simp, by simp, by simp [statusIdx], by simp⟩⟩, by simp⟩
    · exact ⟨⟨⟨by norm_num, by norm_num, by norm_num, by norm_num⟩,
        Or.inl ⟨by simp, by simp, by simp [statusIdx], by simp⟩⟩, by simp⟩
    · exact ⟨⟨⟨by norm_num, by norm_num, by norm_num, by norm_num⟩,
        Or.inr (Or.inl ⟨rfl, by simp, by simp, rfl, le_refl _⟩)⟩, by simp⟩
  · exact report_monotone_traces.2 _ _
      ⟨⟨by norm_num, by norm_num, by norm_num, by norm_num⟩,
        Or.inr (Or.inl ⟨rfl, by simp, by simp, rfl, le_refl _⟩)⟩
      rfl (by simp) rfl

/-! ## Claim C6: the polling coordinator stops at terminal phases and
fetches results exactly once -/

/-- Claim C6.  Once the locally held status is terminal (completed or
failed) the polling loop is absorbing: any further tick sequence leaves
the whole local state (status included) unchanged.  A run started in a
non-terminal state with no results fetch yet triggers at most one
results fetch, and exactly one as soon as the observed status is
completed. -/
theorem polling_terminal_behaviour :
    (∀ (st : PollState) (ts : List PollTick),
        pollTerminal st.status = true → pollRun st ts = st) ∧
    (∀ (st : PollState) (ts : List PollTick),
        pollTerminal st.status = false → st.resultsFetches = 0 →
        (pollRun st ts).resultsFetches ≤ 1 ∧
        ((pollRun st ts).status = .completed →
          (pollRun st ts).resultsFetches = 1)) := by
  constructor
  · intro st ts h
    induction ts with
    | nil => rfl
    | cons t ts ih =>
      simp only [pollRun, List.foldl_cons]
      rw [pollStep_terminal st t h]
      exact ih
  · intro st ts hnt hf
    have hinv : pollInv (pollRun st ts) :=
      pollInv_run st ts (Or.inl ⟨hnt, hf⟩)
    rcases hinv with ⟨hterm, h0⟩ | ⟨hs, h1⟩ | ⟨hs, h0⟩
    · refine ⟨by omega, fun hc => ?_⟩
      rw [hc] at hterm
      simp [pollTerminal] at hterm
    · exact ⟨by omega, fun _ => h1⟩
    · refine ⟨by omega, fun hc => ?_⟩
      rw [hs] at hc
      cases hc

/-- Witness for polling_terminal_behaviour: a pending job observed as
processing and then completed triggers exactly one results fetch, and a
completed local state is left untouched by further ticks. -/
theorem polling_terminal_behaviour_witness :
    (pollRun ⟨.completed, 100, 0, none, 1⟩ [PollTick.ok .pending none] =
      ⟨.completed, 100, 0, none, 1⟩) ∧
    (pollRun ⟨.pending, 0, 0, none, 0⟩
        [PollTick.ok .processing none, PollTick.ok .completed none]).resultsFetches ≤ 1 := by
  constructor
  · exact polling_terminal_behaviour.1 _ _ rfl
  · exact (polling_terminal_behaviour.2 ⟨.pending, 0, 0, none, 0⟩ _ rfl rfl).1

/-! ## Claim C7: transient fetch failures do not stop the loop -/

/-- Claim C7.  While the local status is non-terminal, a transport
failure during a poll tick only appends a log entry: the status, the
stored error and the results-fetch count are untouched, the status stays
non-terminal (so the interval remains installed and polling continues),
and inserting a failure tick anywhere in a tick sequence does not change
the finally held status. -/
theorem transient_failure_keeps_polling :
    (∀ st : PollState, pollTerminal st.status = false →
        (pollStep st .fail).status = st.status ∧
        (pollStep st .fail).resultsFetches = st.resultsFetches ∧
        (pollStep st .fail).error = st.error ∧
        (pollStep st .fail).logCount = st.logCount + 1 ∧
        pollTerminal (pollStep st .fail).status = false) ∧
    (∀ (st : PollState) (ts1 ts2 : List PollTick),
        (pollRun st (ts1 ++ PollTick.fail :: ts2)).status =
          (pollRun st (ts1 ++ ts2)).status) := by
  constructor
  · intro st h
    unfold pollStep
    rw [h]
    simp [h]
  · intro st ts1 ts2
    rw [pollRun_status, pollRun_status, List.foldl_append, List.foldl_append,
      List.foldl_cons, pollStatusStep_fail]

/-- Witness for transient_failure_keeps_polling on a concrete
non-terminal state and a concrete tick sequence. -/
theorem transient_failure_keeps_polling_witness :
    (pollStep ⟨.processing, 50, 3, none, 0⟩ .fail).status = .processing ∧
    (pollRun ⟨.pending, 0, 0, none, 0⟩
        [PollTick.fail, PollTick.ok .completed none]).status =
      (pollRun ⟨.pending, 0, 0, none, 0⟩ [PollTick.ok .completed none]).status := by
  constructor
  · exact (transient_failure_keeps_polling.1 ⟨.processing, 50, 3, none, 0⟩ rfl).1
  · exact transient_failure_keeps_polling.2 ⟨.pending, 0, 0, none, 0⟩ []
      [PollTick.ok .completed none]

/-! ## Claim C10: defaults applied when storing fetched results -/

/-- Claim C10.  After a successful results fetch, an absent or empty
markdown field is replaced by the sentinel document
'# No test cases generated', an absent json field is replaced by an
empty JSON object, and the stored markdown is never empty. -/
theorem storeResults_defaults (p : ResultsPayload) :
    ((p.markdown = none ∨ p.markdown = some []) →
      (storeResults p).markdown = noTestCasesMsg) ∧
    (p.json = none → (storeResults p).json = JsonValue.object []) ∧
    (storeResults p).markdown ≠ [] := by
  refine ⟨?_, ?_, ?_⟩
  · rintro (h | h) <;> simp [storeResults, h]
  · intro h
    simp [storeResults, h]
  · rcases hm : p.markdown with _ | m
    · simp [storeResults, hm, noTestCasesMsg]
    · by_cases he : m = [] <;> simp [storeResults, hm, he, noTestCasesMsg]

/-- Witness for storeResults_defaults on the payload with both fields
absent. -/
theorem storeResults_defaults_witness :
    (storeResults ⟨none, none⟩).markdown = noTestCasesMsg ∧
    (storeResults ⟨none, none⟩).json = JsonValue.object [] ∧
    (storeResults ⟨none, none⟩).markdown ≠ [] :=
  ⟨(storeResults_defaults ⟨none, none⟩).1 (Or.inl rfl),
   (storeResults_defaults ⟨none, none⟩).2.1 rfl,
   (storeResults_defaults ⟨none, none⟩).2.2⟩

/-! ## Text utilities for the parser embedding

Text is `List Char`.  The JavaScript regexes of both parseTestCases
implementations are built from literals, case-insensitive literals,
whitespace runs, lazy any-character captures bounded by lookaheads, and
a small number of optional groups and alternations.  Each is translated
into a deterministic matcher; where the original engine could backtrack,
the comments argue why the translation reproduces the first match the
engine finds. -/

/-- ASCII whitespace as matched by the regex class backslash-s (space,
tab, newline, carriage return, vertical tab, form feed; the Unicode
space characters are not modelled, all concrete inputs are ASCII). -/
def isWsChar (c : Char) : Bool :=
  c = ' ' || c = '\t' || c = '\n' || c = '\r' || c = '\x0B' || c = '\x0C'

/-- Maximal whitespace run removal: the deterministic reading of a
greedy backslash-s-star that is followed by a pattern which cannot match
a whitespace character (so the engine never has to give characters
back). -/
def dropWsAll (t : List Char) : List Char := t.dropWhile isWsChar

/-- JavaScript String.prototype.trim. -/
def trimText (t : List Char) : List Char :=
  ((t.dropWhile isWsChar).reverse.dropWhile isWsChar).reverse

/-- Match one exact character. -/
def stripChar (c : Char) : List Char → Option (List Char)
  | [] => none
  | d :: r => if d = c then some r else none

/-- Match an exact literal, returning the remainder. -/
def stripLit : List Char → List Char → Option (List Char)
  | [], t => some t
  | _ :: _, [] => none
  | c :: l, d :: t => if d = c then stripLit l t else none

/-- Match a literal case-insensitively (ASCII folding, as the regex flag
i does on these patterns), returning the remainder. -/
def stripLitCI : List Char → List Char → Option (List Char)
  | [], t => some t
  | _ :: _, [] => none
  | c :: l, d :: t => if d.toLower = c.toLower then stripLitCI l t else none

/-- Backslash-s-plus followed by a non-whitespace pattern: at least one
whitespace character, then the maximal run (the engine's backtracking
cannot stop earlier because the follow-up pattern starts with a
non-whitespace character). -/
def wsPlus : List Char → Option (List Char)
  | [] => none
  | c :: r => if isWsChar c then some (dropWsAll r) else none

/-- Decimal digits to a natural number (parseInt on a digit string;
exact rather than float-rounded, which no claim depends on). -/
def natFromDigits (ds : List Char) : Nat :=
  ds.foldl (fun a c => a * 10 + (c.toNat - 48)) 0

/-- Decimal digit to its character. -/
def digitToChar : Nat → Char
  | 0 => '0'
  | 1 => '1'
  | 2 => '2'
  | 3 => '3'
  | 4 => '4'
  | 5 => '5'
  | 6 => '6'
  | 7 => '7'
  | 8 => '8'
  | _ => '9'

/-- Fuelled decimal printing helper; natToStrGo n n prints n when n is
positive (the fuel bounds the number of digits). -/
def natToStrGo : Nat → Nat → List Char
  | 0, _ => []
  | fuel + 1, n =>
    if n = 0 then [] else natToStrGo fuel (n / 10) ++ [digitToChar (n % 10)]

/-- Decimal representation of a natural number, as the template literal
interpolation of a JavaScript integer produces it. -/
def natToStr (n : Nat) : List Char :=
  if n = 0 then ['0'] else natToStrGo n n

/-- Generic scan of String.prototype.match: try the matcher at every
position from the left, returning the first success. -/
def scanOpt {α : Type} (m : List Char → Option α) : List Char → Option α
  | [] => m []
  | c :: rest =>
    match m (c :: rest) with
    | some x => some x
    | none => scanOpt m rest

/-- Lazy capture bounded by a lookahead: starting at the current
position, succeed with the shortest capture whose end position satisfies
the lookahead; every captured character must belong to the capture's
character class (the class is the full any-character class for the
literal regexes, and the letters s and S for the patterns part_005
builds from string literals in which backslash-s collapsed). -/
def takeUntilLook (cls : Char → Bool) (look : List Char → Bool) :
    List Char → Option (List Char)
  | [] => if look [] then some [] else none
  | c :: r =>
    if look (c :: r) then some []
    else if cls c then (takeUntilLook cls look r).map (c :: ·) else none

/-- Variant of takeUntilLook that also returns the suffix at which the
lookahead held (the position where a global regex continues). -/
def takeUntilLookP (cls : Char → Bool) (look : List Char → Bool) :
    List Char → Option (List Char × List Char)
  | [] => if look [] then some ([], []) else none
  | c :: r =>
    if look (c :: r) then some ([], c :: r)
    else if cls c then
      (takeUntilLookP cls look r).map (fun p => (c :: p.1, p.2))
    else none

/-- Greedy backslash-s-star followed by a lazy capture bounded by a
lookahead.  The engine first consumes the maximal whitespace run, then
grows the capture; only if no capture end at or after that point
satisfies the lookahead does it give whitespace back, in which case the
lookahead can only hold exactly at the earlier position (capture ends
strictly beyond it were already ruled out), with an empty capture. -/
def capAfterWs (cls : Char → Bool) (look : List Char → Bool) :
    List Char → Option (List Char)
  | [] => takeUntilLook cls look []
  | c :: r =>
    if isWsChar c then
      match capAfterWs cls look r with
      | some cap => some cap
      | none => if look (c :: r) then some [] else none
    else takeUntilLook cls look (c :: r)

/-- Variant of capAfterWs that also returns the suffix at which the
lookahead held. -/
def capAfterWsP (cls : Char → Bool) (look : List Char → Bool) :
    List Char → Option (List Char × List Char)
  | [] => takeUntilLookP cls look []
  | c :: r =>
    if isWsChar c then
      match capAfterWsP cls look r with
      | some p => some p
      | none => if look (c :: r) then some ([], c :: r) else none
    else takeUntilLookP cls look (c :: r)

/-- Lazy capture bounded by a pattern that is consumed (not a
lookahead): succeed with the shortest capture after which the middle
pattern matches, returning the capture and the remainder after the
middle pattern. -/
def takeUntilMid (cls : Char → Bool) (mid : List Char → Option (List Char)) :
    List Char → Option (List Char × List Char)
  | [] =>
    match mid [] with
    | some r => some ([], r)
    | none => none
  | c :: rest =>
    match mid (c :: rest) with
    | some r => some ([], r)
    | none =>
      if cls c then
        (takeUntilMid cls mid rest).map (fun p => (c :: p.1, p.2))
      else none

/-- Any-character capture class of the literal regexes. -/
def clsAll : Char → Bool := fun _ => true

/-- Capture class of the part_005 patterns built via new RegExp from a
plain string literal: the two-character sequence backslash-s inside the
class collapsed to the letter s, so the class matches only s and S. -/
def clsSmall : Char → Bool := fun c => c = 's' || c = 'S'

/-- Field extraction for a whole labelled-field regex of the shape
prefix, backslash-s-star, lazy capture, lookahead: scan positions from
the left; where the prefix matches but the capture machinery fails, the
whole match at that position fails and scanning continues (this is what
String.prototype.match does). -/
def extractField (pre : List Char → Option (List Char)) (cls : Char → Bool)
    (look : List Char → Bool) : List Char → Option (List Char) :=
  scanOpt (fun t => (pre t).bind (capAfterWs cls look))

/-! ## Fuelled splitting (String.prototype.split on a regex) -/

/-- Fuelled left-to-right split on a delimiter matcher.  Every delimiter
below consumes at least one character, so fuel equal to the input length
never runs out (the fuel-exhausted branch is unreachable). -/
def splitByGo (delim : List Char → Option (List Char)) :
    Nat → List Char → List (List Char)
  | 0, t => [t]
  | _ + 1, [] => [[]]
  | fuel + 1, c :: rest =>
    match delim (c :: rest) with
    | some r => [] :: splitByGo delim fuel r
    | none =>
      match splitByGo delim fuel rest with
      | [] => [[c]]
      | f :: fs => (c :: f) :: fs

/-- Split a text on a delimiter matcher, String.prototype.split style:
the result has one more fragment than there are delimiter matches. -/
def splitBy (delim : List Char → Option (List Char)) (t : List Char) :
    List (List Char) :=
  splitByGo delim t.length t

/-- Fuelled count of delimiter matches, following the same recursion as
splitByGo. -/
def countByGo (delim : List Char → Option (List Char)) :
    Nat → List Char → Nat
  | 0, _ => 0
  | _ + 1, [] => 0
  | fuel + 1, c :: rest =>
    match delim (c :: rest) with
    | some r => 1 + countByGo delim fuel r
    | none => countByGo delim fuel rest

/-- Number of non-overlapping delimiter matches in a text. -/
def countBy (delim : List Char → Option (List Char)) (t : List Char) : Nat :=
  countByGo delim t.length t

/-! ## The block-start marker and the split into blocks -/

/-- Marker regex of both parsers (ScanProgressUI line 303, part_005 line
764): three hashes, whitespace, Test, whitespace, Case, whitespace, ID
and a colon, case-insensitively.  Each backslash-s-plus is followed by a
letter, so the maximal-run reading is exact. -/
def matchMarker (t : List Char) : Option (List Char) :=
  (stripLit "###".data t).bind fun t1 =>
  (wsPlus t1).bind fun t2 =>
  (stripLitCI "test".data t2).bind fun t3 =>
  (wsPlus t3).bind fun t4 =>
  (stripLitCI "case".data t4).bind fun t5 =>
  (wsPlus t5).bind fun t6 =>
  stripLitCI "id:".data t6

/-- Number of block-start markers in a text. -/
def countMarkers (t : List Char) : Nat := countBy matchMarker t

/-! ## Lookaheads of the ScanProgressUI field regexes -/

/-- Lookahead family of the ScanProgressUI regexes: a newline, a star,
optional whitespace and two stars followed by one of the given label
literals (an empty literal in the list makes the bare bullet-label
alternative available), or a possibly empty run of newlines reaching the
end of the text.  All terminators of the original alternations have this
shape. -/
def lookSPU (labels : List (List Char)) (t : List Char) : Bool :=
  (match t with
   | '\n' :: r =>
     match stripChar '*' r with
     | some r1 =>
       match stripLit "**".data (dropWsAll r1) with
       | some r2 => labels.any (fun l => (stripLitCI l r2).isSome)
       | none => false
     | none => false
   | _ => false) ||
  t.all (fun c => c = '\n')

/-- Plain ScanProgressUI lookahead (used by the Feature, Title, Type,
Priority, Primary Element and Postconditions regexes). -/
def lookSPUPlain : List Char → Bool := lookSPU [[]]

/-- Lookahead of the ScanProgressUI Description regex: only the five
listed field labels (or trailing newlines to the end) terminate the
description. -/
def lookSPUDesc : List Char → Bool :=
  lookSPU ["primary element".data, "related elements".data,
    "preconditions".data, "steps".data, "postconditions".data]

/-- Lookahead of the ScanProgressUI Preconditions regex (a Steps label,
any label, or trailing newlines). -/
def lookSPUPre : List Char → Bool := lookSPU ["steps".data, []]

/-- Lookahead of the ScanProgressUI Steps regex (a Postconditions label,
any label, or trailing newlines). -/
def lookSPUSteps : List Char → Bool := lookSPU ["postconditions".data, []]

/-! ## Lookaheads of the part_005 field regexes -/

/-- Lookahead of the part_005 literal field regexes: a newline followed
by two stars, or a newline that ends the text. -/
def lookTCV (t : List Char) : Bool :=
  match t with
  | '\n' :: '*' :: '*' :: _ => true
  | ['\n'] => true
  | _ => false

/-- Lookahead with the additional bare end-of-text alternative, used by
the part_005 Description regex and all its new RegExp patterns. -/
def lookTCVEnd (t : List Char) : Bool := lookTCV t || t.isEmpty

/-! ## Field prefixes -/

/-- ScanProgressUI field prefix: a star, optional whitespace, two stars,
the label literal (which includes its colon), two stars.  The optional
whitespace cannot swallow the following star, so the maximal-run reading
is exact. -/
def spuFieldPre (label : List Char) (t : List Char) : Option (List Char) :=
  (stripChar '*' t).bind fun t1 =>
  (stripLit "**".data (dropWsAll t1)).bind fun t2 =>
  (stripLitCI label t2).bind fun t3 =>
  stripLit "**".data t3

/-- ScanProgressUI Feature prefix with its optional Tested group: if the
optional group matches but the rest fails, the engine retries without
it; both orders are tried here. -/
def spuFeaturePre (t : List Char) : Option (List Char) :=
  (stripChar '*' t).bind fun t1 =>
  (stripLit "**".data (dropWsAll t1)).bind fun t2 =>
  (stripLitCI "feature".data t2).bind fun t3 =>
  match ((wsPlus t3).bind (stripLitCI "tested".data)).bind
      (fun t4 => (stripChar ':' t4).bind (stripLit "**".data)) with
  | some r => some r
  | none => (stripChar ':' t3).bind (stripLit "**".data)

/-- ScanProgressUI Primary Element prefix: the alternation of the
Primary Element Under Test and Element Under Test spellings, a colon and
two stars; alternatives are tried in the pattern's order. -/
def spuPrimaryPre (t : List Char) : Option (List Char) :=
  (stripChar '*' t).bind fun t1 =>
  (stripLit "**".data (dropWsAll t1)).bind fun t2 =>
  let tail := fun r =>
    (stripChar ':' r).bind (stripLit "**".data)
  match ((stripLitCI "primary".data t2).bind wsPlus).bind
      (fun r => ((stripLitCI "element".data r).bind wsPlus).bind
        (fun r2 => ((stripLitCI "under".data r2).bind wsPlus).bind
          (stripLitCI "test".data))) |>.bind tail with
  | some r => some r
  | none =>
    ((stripLitCI "element".data t2).bind wsPlus).bind
      (fun r2 => ((stripLitCI "under".data r2).bind wsPlus).bind
        (stripLitCI "test".data)) |>.bind tail

/-- part_005 field prefix: two stars, the label literal (including its
colon), two stars. -/
def tcvFieldPre (label : List Char) (t : List Char) : Option (List Char) :=
  (stripLit "**".data t).bind fun t1 =>
  (stripLitCI label t1).bind fun t2 =>
  stripLit "**".data t2

/-- part_005 Feature prefix with its optional Tested group. -/
def tcvFeaturePre (t : List Char) : Option (List Char) :=
  (stripLit "**".data t).bind fun t1 =>
  (stripLitCI "feature".data t1).bind fun t2 =>
  match ((wsPlus t2).bind (stripLitCI "tested".data)).bind
      (fun t3 => (stripChar ':' t3).bind (stripLit "**".data)) with
  | some r => some r
  | none => (stripChar ':' t2).bind (stripLit "**".data)

/-- part_005 Primary Element prefix: two stars, one of Primary Element,
Related Element, Element Under Test, an optional Under Test, a colon and
two stars; choices are explored in the engine's order. -/
def tcvPrimaryPre (t : List Char) : Option (List Char) :=
  (stripLit "**".data t).bind fun t1 =>
  let tail := fun r =>
    match ((wsPlus r).bind (stripLitCI "under".data)).bind
        (fun r1 => (wsPlus r1).bind (stripLitCI "test".data)) |>.bind
        (fun r2 => (stripChar ':' r2).bind (stripLit "**".data)) with
    | some x => some x
    | none => (stripChar ':' r).bind (stripLit "**".data)
  match ((stripLitCI "primary".data t1).bind wsPlus).bind
      (stripLitCI "element".data) |>.bind tail with
  | some x => some x
  | none =>
    match ((stripLitCI "related".data t1).bind wsPlus).bind
        (stripLitCI "element".data) |>.bind tail with
    | some x => some x
    | none =>
      ((stripLitCI "element".data t1).bind wsPlus).bind
        (fun r => ((stripLitCI "under".data r).bind wsPlus).bind
          (stripLitCI "test".data)) |>.bind tail

/-! ## Test case identifiers -/

/-- Character class of the ScanProgressUI id capture: with the i flag,
the class of upper-case letters, digits and underscore also matches
lower-case letters. -/
def spuIdChar (c : Char) : Bool := c.isUpper || c.isLower || c.isDigit || c = '_'

/-- Character class of the part_005 id capture (no i flag). -/
def tcvIdChar (c : Char) : Bool := c.isUpper || c.isDigit || c = '_'

/-- One attempt of the ScanProgressUI id regex (line 307): the marker,
optional whitespace, then a TC underscore prefix (case-insensitively)
and at least one id character, captured verbatim. -/
def spuIdAt (t : List Char) : Option (List Char) :=
  (matchMarker t).bind fun t6 =>
  match dropWsAll t6 with
  | a :: b :: c :: r =>
    if (a = 'T' || a = 't') && (b = 'C' || b = 'c') && c = '_' then
      let run := r.takeWhile spuIdChar
      if run.isEmpty then none else some (a :: b :: c :: run)
    else none
  | _ => none

/-- String.prototype.match of the ScanProgressUI id regex over a block. -/
def spuIdSearch : List Char → Option (List Char) := scanOpt spuIdAt

/-- part_005 id regex (line 771), anchored at the start of the trimmed
block: a literal TC underscore prefix and at least one upper-case id
character, captured verbatim. -/
def tcvIdAt (t : List Char) : Option (List Char) :=
  match t with
  | 'T' :: 'C' :: '_' :: r =>
    let run := r.takeWhile tcvIdChar
    if run.isEmpty then none else some ('T' :: 'C' :: '_' :: run)
  | _ => none

/-- Unique id assembled from the extracted or generated identifier and
the block's 1-based ordinal (the template literal id dash i). -/
def mkUniqueId (base : List Char) (i : Nat) : List Char :=
  base ++ '-' :: natToStr i

/-! ## Preconditions and postconditions -/

/-- First alternative of the list-splitting delimiter (a newline,
whitespace, a star or dash bullet, whitespace): whitespace cannot hold
the bullet character, so maximal runs are exact. -/
def bulletDelim (t : List Char) : Option (List Char) :=
  match t with
  | '\n' :: r =>
    (match dropWsAll r with
     | c :: r2 => if c = '*' || c = '-' then some (dropWsAll r2) else none
     | [] => none)
  | _ => none

/-- Second alternative of the list-splitting delimiter (a newline,
whitespace, digits, a dot, whitespace). -/
def numDelim (t : List Char) : Option (List Char) :=
  match t with
  | '\n' :: r =>
    let r1 := dropWsAll r
    let ds := r1.takeWhile Char.isDigit
    if ds.isEmpty then none
    else
      match r1.dropWhile Char.isDigit with
      | '.' :: r3 => some (dropWsAll r3)
      | _ => none
  | _ => none

/-- The combined delimiter, alternatives in the pattern's order. -/
def condDelim (t : List Char) : Option (List Char) :=
  match bulletDelim t with
  | some r => some r
  | none => numDelim t

/-- ScanProgressUI list-field processing (lines 341-345 and 366-370):
the trimmed capture is split on bullet or numbered markers, items are
trimmed and empty ones dropped; if nothing remains but the trimmed
capture is non-empty, the whole trimmed capture is the single item. -/
def condItemsSPU (cap : List Char) : List (List Char) :=
  let items :=
    ((splitBy condDelim (trimText cap)).map trimText).filter
      (fun i => !i.isEmpty)
  if items.isEmpty && !(trimText cap).isEmpty then [trimText cap] else items

/-- part_005 list-field processing (lines 884-892 and 902-910): as for
ScanProgressUI except that the raw capture (not trimmed) is split. -/
def condItemsTCV (cap : List Char) : List (List Char) :=
  let items :=
    ((splitBy condDelim cap).map trimText).filter (fun i => !i.isEmpty)
  if items.isEmpty && !(trimText cap).isEmpty then [trimText cap] else items

/-! ## Steps -/

/-- One parsed step row. -/
structure StepEntry where
  number : Nat
  action : List Char
  expectedResult : List Char
deriving DecidableEq, Repr

/-- Middle pattern of the ScanProgressUI step regex: whitespace, two
stars, Expected, whitespace, Result and a colon, two stars. -/
def spuMidExpected (t : List Char) : Option (List Char) :=
  (stripLit "**".data (dropWsAll t)).bind fun t1 =>
  (stripLitCI "expected".data t1).bind fun t2 =>
  (wsPlus t2).bind fun t3 =>
  (stripLitCI "result:".data t3).bind fun t4 =>
  stripLit "**".data t4

/-- Lookahead of the ScanProgressUI step regex: a newline, whitespace,
digits, a dot, whitespace and a two-star Action label, or trailing
newlines to the end. -/
def lookSPUStepNext (t : List Char) : Bool :=
  (match t with
   | '\n' :: r =>
     let r1 := dropWsAll r
     let ds := r1.takeWhile Char.isDigit
     if ds.isEmpty then false
     else
       match r1.dropWhile Char.isDigit with
       | '.' :: r2 =>
         ((stripLit "**".data (dropWsAll r2)).bind
           (stripLitCI "action".data)).isSome
       | _ => false
   | _ => false) ||
  t.all (fun c => c = '\n')

/-- One attempt of the ScanProgressUI step regex (line 351) at a
position: digits, a dot, whitespace, a two-star Action label, the lazy
action capture up to the consumed Expected Result label, then the lazy
result capture up to the lookahead; returns the step number (the
leading digits of the whole match, which parseInt reads back), the two
captures and the suffix where the global scan resumes. -/
def spuStepAt (t : List Char) :
    Option (Nat × List Char × List Char × List Char) :=
  let ds := t.takeWhile Char.isDigit
  if ds.isEmpty then none
  else
    match t.dropWhile Char.isDigit with
    | '.' :: r1 =>
      ((stripLit "**".data (dropWsAll r1)).bind
          (stripLitCI "action:".data)).bind (stripLit "**".data) |>.bind
        fun r2 =>
          (takeUntilMid clsAll spuMidExpected (dropWsAll r2)).bind
            fun (act, r3) =>
              (capAfterWsP clsAll lookSPUStepNext r3).map
                fun (exp, r4) => (natFromDigits ds, act, exp, r4)
    | _ => none

/-- Global-flag loop of the ScanProgressUI step regex: scan for the next
match, emit a row, resume after it.  Each match consumes at least one
character, so fuel equal to the text length suffices. -/
def spuStepsGo : Nat → List Char → List StepEntry
  | 0, _ => []
  | _ + 1, [] => []
  | fuel + 1, c :: rest =>
    match spuStepAt (c :: rest) with
    | some (n, act, exp, r) =>
      ⟨n, trimText act, trimText exp⟩ :: spuStepsGo fuel r
    | none => spuStepsGo fuel rest

/-- ScanProgressUI steps sub-parsing: only the Action and Expected
Result pattern, with no fallback (lines 350-361). -/
def spuSteps (cap : List Char) : List StepEntry := spuStepsGo cap.length cap

/-- Middle pattern of the part_005 step regex: a two-star Expected
Result label consumed directly after the lazy action capture (no leading
whitespace consumption). -/
def tcvMidExpected (t : List Char) : Option (List Char) :=
  (stripLit "**".data t).bind fun t1 =>
  (stripLitCI "expected".data t1).bind fun t2 =>
  (wsPlus t2).bind fun t3 =>
  (stripLitCI "result:".data t3).bind fun t4 =>
  stripLit "**".data t4

/-- Lookahead of the part_005 step regex: the next numbered two-star
Action label, a newline and two stars, a final newline, or the end. -/
def lookTCVStepNext (t : List Char) : Bool :=
  (match t with
   | '\n' :: r =>
     let r1 := dropWsAll r
     let ds := r1.takeWhile Char.isDigit
     if ds.isEmpty then false
     else
       let r2 := r1.dropWhile Char.isDigit
       let r3 := match r2 with
                 | '.' :: x => x
                 | _ => r2
       (((stripLit "**".data (dropWsAll r3)).bind
           (stripLitCI "action:".data)).bind (stripLit "**".data)).isSome
   | _ => false) ||
  lookTCVEnd t

/-- One attempt of the part_005 step regex (line 829): digits, an
optional dot, whitespace, a two-star Action label, the lazy action
capture (any characters, this is a literal regex) up to the consumed
Expected Result label, then the lazy result capture up to the
lookahead. -/
def tcvStepAt (t : List Char) :
    Option (Nat × List Char × List Char × List Char) :=
  let ds := t.takeWhile Char.isDigit
  if ds.isEmpty then none
  else
    let r0 := t.dropWhile Char.isDigit
    let r1 := match r0 with
              | '.' :: x => x
              | _ => r0
    ((stripLit "**".data (dropWsAll r1)).bind
        (stripLitCI "action:".data)).bind (stripLit "**".data) |>.bind
      fun r2 =>
        (takeUntilMid clsAll tcvMidExpected r2).bind
          fun (act, r3) =>
            (takeUntilLookP clsAll lookTCVStepNext r3).map
              fun (exp, r4) => (natFromDigits ds, act, exp, r4)

/-- Global-flag loop of the part_005 step regex. -/
def tcvStepsGo : Nat → List Char → List StepEntry
  | 0, _ => []
  | _ + 1, [] => []
  | fuel + 1, c :: rest =>
    match tcvStepAt (c :: rest) with
    | some (n, act, exp, r) =>
      ⟨n, trimText act, trimText exp⟩ :: tcvStepsGo fuel r
    | none => tcvStepsGo fuel rest

/-- Lookahead of the part_005 simple step regex (line 843): the next
numbered line, a newline and two stars, a final newline, or the end. -/
def lookTCVSimpleNext (t : List Char) : Bool :=
  (match t with
   | '\n' :: r =>
     let r1 := dropWsAll r
     let ds := r1.takeWhile Char.isDigit
     if ds.isEmpty then false
     else
       match r1.dropWhile Char.isDigit with
       | '.' :: _ => true
       | _ => false
   | _ => false) ||
  lookTCVEnd t

/-- One attempt of the part_005 simple step regex: digits, an optional
dot, whitespace, then the lazy capture up to the lookahead (the
lookahead's bare end alternative means the capture machinery never
fails, so the optional dot never backtracks). -/
def tcvSimpleAt (t : List Char) : Option (Nat × List Char × List Char) :=
  let ds := t.takeWhile Char.isDigit
  if ds.isEmpty then none
  else
    let r0 := t.dropWhile Char.isDigit
    let r1 := match r0 with
              | '.' :: x => x
              | _ => r0
    (capAfterWsP clsAll lookTCVSimpleNext r1).map
      fun (cap, r2) => (natFromDigits ds, cap, r2)

/-- Global-flag loop of the part_005 simple step regex; each row's
expected result is the Not specified sentinel (line 849). -/
def tcvSimpleGo : Nat → List Char → List StepEntry
  | 0, _ => []
  | _ + 1, [] => []
  | fuel + 1, c :: rest =>
    match tcvSimpleAt (c :: rest) with
    | some (n, cap, r) =>
      ⟨n, trimText cap, "Not specified".data⟩ :: tcvSimpleGo fuel r
    | none => tcvSimpleGo fuel rest

/-- Action pattern of the part_005 third fallback (line 859, built via
new RegExp, so its capture class is clsSmall): the lazy capture up to a
consumed-nothing lookahead of an Expected Result label or the end;
String.prototype.match scans positions, and the end alternative makes it
always succeed. -/
def tcvThirdAction (line : List Char) : Option (List Char) :=
  scanOpt
    (takeUntilLook clsSmall
      (fun t => (tcvMidExpected t).isSome || t.isEmpty))
    line

/-- Lookahead of the part_005 third-fallback result pattern (line 862):
the next numbered line, a final newline, or the end. -/
def lookTCVResNext (t : List Char) : Bool :=
  (match t with
   | '\n' :: r =>
     let r1 := dropWsAll r
     let ds := r1.takeWhile Char.isDigit
     if ds.isEmpty then false
     else
       match r1.dropWhile Char.isDigit with
       | '.' :: _ => true
       | _ => false
   | _ => false) ||
  (match t with
   | ['\n'] => true
   | [] => true
   | _ => false)

/-- Result pattern of the part_005 third fallback: an Expected Result
label, whitespace, then the clsSmall lazy capture up to the lookahead. -/
def tcvThirdResult (line : List Char) : Option (List Char) :=
  extractField tcvMidExpected clsSmall lookTCVResNext line

/-- Third fallback of the part_005 steps sub-parsing (lines 854-873):
split the steps text on numbered-line delimiters and turn each fragment
after the first into a row (the action match always succeeds thanks to
its end alternative, so one row per fragment). -/
def tcvThirdGo : Nat → List (List Char) → List StepEntry
  | _, [] => []
  | j, line :: rest =>
    ⟨j, trimText ((tcvThirdAction line).getD []),
      ((tcvThirdResult line).map trimText).getD "Not specified".data⟩ ::
      tcvThirdGo (j + 1) rest

def tcvThirdSteps (cap : List Char) : List StepEntry :=
  tcvThirdGo 1 ((splitBy numDelim cap).drop 1)

/-- part_005 steps sub-parsing (lines 827-875): the Action and Expected
Result pattern first, then the simple numbered-line pattern, then the
split-based fallback. -/
def tcvSteps (cap : List Char) : List StepEntry :=
  let s1 := tcvStepsGo cap.length cap
  if s1.isEmpty then
    let s2 := tcvSimpleGo cap.length cap
    if s2.isEmpty then tcvThirdSteps cap else s2
  else s1

/-! ## Primary element -/

/-- Backtick character (code point 96). -/
def btChar : Char := Char.ofNat 96

/-- One parsed primary element. -/
structure PrimaryElem where
  selector : List Char
  purpose : Option (List Char)
deriving DecidableEq, Repr

/-- One attempt of the ScanProgressUI selector pattern (line 330): a
Selector label, whitespace, then a backtick-quoted non-empty run (the
greedy inner class holds no backtick, so the maximal run up to the
closing backtick is exact). -/
def spuSelectorAt (t : List Char) : Option (List Char) :=
  (stripLitCI "selector:".data t).bind fun t1 =>
  (stripChar btChar (dropWsAll t1)).bind fun t2 =>
  let run := t2.takeWhile (fun c => c ≠ btChar)
  if run.isEmpty then none
  else
    match t2.drop run.length with
    | c :: _ => if c = btChar then some run else none
    | [] => none

/-- Greedy whitespace then a non-empty greedy any-character capture to
the end (the ScanProgressUI purpose pattern's tail): if everything after
the label is whitespace the engine gives one character back and captures
the final whitespace character; an empty remainder fails. -/
def capWsGreedyRest (t : List Char) : Option (List Char) :=
  match t with
  | [] => none
  | _ =>
    let r := dropWsAll t
    if r.isEmpty then some (t.drop (t.length - 1)) else some r

/-- One attempt of the ScanProgressUI purpose pattern (line 331): a
Purpose label with an optional in-this-test infix, a colon, then the
greedy capture. -/
def spuPurposeAt (t : List Char) : Option (List Char) :=
  (stripLitCI "purpose".data t).bind fun t1 =>
  (match (stripLitCI " in this test".data t1).bind (stripChar ':') with
   | some r => some r
   | none => stripChar ':' t1).bind capWsGreedyRest

/-- ScanProgressUI primary-element content processing (lines 328-336):
trim the capture; the selector is the backtick capture trimmed, or else
the first line with a leading Selector label removed and trimmed; the
purpose is the purpose capture trimmed, when present. -/
def spuRemoveSelectorLabel : List Char → List Char
  | [] => []
  | c :: rest =>
    match (stripLitCI "selector:".data (c :: rest)).map dropWsAll with
    | some r => r
    | none => c :: spuRemoveSelectorLabel rest

def spuPrimaryProc (cap : List Char) : PrimaryElem :=
  let content := trimText cap
  { selector :=
      match scanOpt spuSelectorAt content with
      | some s => trimText s
      | none =>
        trimText (spuRemoveSelectorLabel (content.takeWhile (fun c => c ≠ '\n')))
    purpose := (scanOpt spuPurposeAt content).map trimText }

/-- One attempt of the part_005 backtick selector pattern (line 808). -/
def tcvBacktickAt (t : List Char) : Option (List Char) :=
  (stripChar btChar t).bind fun t1 =>
  let run := t1.takeWhile (fun c => c ≠ btChar)
  if run.isEmpty then none
  else
    match t1.drop run.length with
    | c :: _ => if c = btChar then some run else none
    | [] => none

/-- part_005 purpose pattern (line 812): a Purpose label, whitespace,
then a lazy not-newline capture up to a newline or the end. -/
def tcvPurpose (cap : List Char) : Option (List Char) :=
  extractField (stripLitCI "purpose:".data) (fun c => c ≠ '\n')
    (fun t => (match t with
               | '\n' :: _ => true
               | [] => true
               | _ => false))
    cap

/-- part_005 primary-element content processing (lines 806-820): a
backtick capture is used verbatim (untrimmed); otherwise the trimmed
capture is the selector when non-empty (an empty trim is falsy in the
guard, so no element is produced). -/
def tcvPrimaryProc (cap : List Char) : Option PrimaryElem :=
  match scanOpt tcvBacktickAt cap with
  | some s => some { selector := s, purpose := (tcvPurpose cap).map trimText }
  | none =>
    if trimText cap = [] then none
    else some { selector := trimText cap,
                purpose := (tcvPurpose cap).map trimText }

/-! ## The TestCase record and the two block parsers -/

structure TestCase where
  id : List Char
  originalId : List Char
  feature : List Char
  title : List Char
  type : List Char
  priority : List Char
  description : List Char
  primaryElement : Option PrimaryElem
  steps : List StepEntry
  preconditions : List (List Char)
  postconditions : List (List Char)
deriving DecidableEq, Repr

/-- JavaScript string disjunction x or-else y (the empty string is
falsy). -/
def jsOr (x y : List Char) : List Char := if x = [] then y else x

/-- Block text the ScanProgressUI parser works on: the marker re-attached
to the trimmed fragment (line 305). -/
def spuSection (frag : List Char) : List Char :=
  "### Test Case ID:".data ++ trimText frag

/-- Named field extractions of the ScanProgressUI parser (referenced by
the claims about preconditions and postconditions). -/
def spuPreconditionsField (sect : List Char) : Option (List Char) :=
  extractField (spuFieldPre "preconditions:".data) clsAll lookSPUPre sect

def spuPostconditionsField (sect : List Char) : Option (List Char) :=
  extractField (spuFieldPre "postconditions:".data) clsAll lookSPUPlain sect

def spuStepsField (sect : List Char) : Option (List Char) :=
  extractField (spuFieldPre "steps:".data) clsAll lookSPUSteps sect

/-- One block of the ScanProgressUI parseTestCases loop (lines 304-385),
at 1-based ordinal i. -/
def spuBlock (i : Nat) (frag : List Char) : TestCase :=
  let sect := spuSection frag
  let idBase := (spuIdSearch sect).getD ("Unknown-".data ++ natToStr i)
  let feature :=
    ((extractField spuFeaturePre clsAll lookSPUPlain sect).map trimText).getD []
  let title :=
    ((extractField (spuFieldPre "title:".data) clsAll lookSPUPlain
      sect).map trimText).getD []
  let ty :=
    ((extractField (spuFieldPre "type:".data) clsAll lookSPUPlain
      sect).map trimText).getD []
  let priority :=
    match extractField (spuFieldPre "priority:".data) clsAll lookSPUPlain
        sect with
    | some cap => trimText cap
    | none => "Medium".data
  let description :=
    ((extractField (spuFieldPre "description:".data) clsAll lookSPUDesc
      sect).map trimText).getD []
  { id := mkUniqueId idBase i
    originalId := idBase
    feature := jsOr feature "General Functionality".data
    title := jsOr title ("Test Case ".data ++ idBase)
    type := jsOr ty "Functional".data
    priority := priority
    description := description
    primaryElement :=
      (extractField spuPrimaryPre clsAll lookSPUPlain sect).map spuPrimaryProc
    steps :=
      match spuStepsField sect with
      | some cap => spuSteps cap
      | none => []
    preconditions :=
      match spuPreconditionsField sect with
      | some cap => condItemsSPU cap
      | none => []
    postconditions :=
      match spuPostconditionsField sect with
      | some cap => condItemsSPU cap
      | none => [] }

/-- Block text the part_005 parser works on: the trimmed fragment (line
768; the marker is not re-attached). -/
def tcvSection (frag : List Char) : List Char := trimText frag

/-- Named steps-field extraction of the part_005 parser (its capture
class is clsSmall because the pattern was built from a string literal). -/
def tcvStepsField (sect : List Char) : Option (List Char) :=
  extractField (tcvFieldPre "steps:".data) clsSmall lookTCVEnd sect

/-- One block of the part_005 parseTestCases loop (lines 767-931), at
1-based ordinal i. -/
def tcvBlock (i : Nat) (frag : List Char) : TestCase :=
  let sect := tcvSection frag
  let idBase := (tcvIdAt sect).getD ("Unknown-".data ++ natToStr i)
  let feature :=
    ((extractField tcvFeaturePre clsAll lookTCV sect).map trimText).getD []
  let title :=
    ((extractField (tcvFieldPre "title:".data) clsAll lookTCV
      sect).map trimText).getD []
  let ty :=
    ((extractField (tcvFieldPre "type:".data) clsAll lookTCV
      sect).map trimText).getD []
  let priority :=
    ((extractField (tcvFieldPre "priority:".data) clsAll lookTCV
      sect).map trimText).getD []
  let description :=
    ((extractField (tcvFieldPre "description:".data) clsAll lookTCVEnd
      sect).map trimText).getD []
  { id := mkUniqueId idBase i
    originalId := idBase
    feature := jsOr feature "General Functionality".data
    title := jsOr title ("Test Case ".data ++ idBase)
    type := jsOr ty "Functional".data
    priority := jsOr priority "Medium".data
    description := description
    primaryElement :=
      (extractField tcvPrimaryPre clsSmall lookTCVEnd sect).bind tcvPrimaryProc
    steps :=
      match tcvStepsField sect with
      | some cap => tcvSteps cap
      | none => []
    preconditions :=
      match extractField (tcvFieldPre "preconditions:".data) clsSmall
          lookTCVEnd sect with
      | some cap => condItemsTCV cap
      | none => []
    postconditions :=
      match extractField (tcvFieldPre "postconditions:".data) clsSmall
          lookTCVEnd sect with
      | some cap => condItemsTCV cap
      | none => [] }

/-- The per-block loop: one record per fragment, ordinals counting up
from the given start. -/
def parseBlocks (pb : Nat → List Char → TestCase) :
    Nat → List (List Char) → List TestCase
  | _, [] => []
  | i, f :: fs => pb i f :: parseBlocks pb (i + 1) fs

/-- ScanProgressUI parseTestCases: split on the marker, drop the text
before the first marker, parse each block at its 1-based ordinal. -/
def spuParseTestCases (md : List Char) : List TestCase :=
  parseBlocks spuBlock 1 ((splitBy matchMarker md).drop 1)

/-- part_005 parseTestCases, same split and ordinals. -/
def tcvParseTestCases (md : List Char) : List TestCase :=
  parseBlocks tcvBlock 1 ((splitBy matchMarker md).drop 1)

/-! ## Decimal printing lemmas (for id uniqueness) -/

lemma natToStrGo_eq_digits (fuel : ℕ) :
    ∀ n : ℕ, n ≤ fuel →
      natToStrGo fuel n = ((Nat.digits 10 n).map digitToChar).reverse := by
  induction fuel with
  | zero =>
    intro n hn
    interval_cases n
    simp [natToStrGo]
  | succ fuel ih =>
    intro n hn
    by_cases h0 : n = 0
    · simp [natToStrGo, h0]
    · rw [natToStrGo, if_neg h0,
        Nat.digits_def' (by norm_num : (1:ℕ) < 10) (Nat.pos_of_ne_zero h0),
        List.map_cons, List.reverse_cons,
        ih (n / 10) (by
          have : n / 10 < n := Nat.div_lt_self (Nat.pos_of_ne_zero h0) (by norm_num)
          omega)]

lemma natToStr_eq_digits (n : ℕ) (h0 : n ≠ 0) :
    natToStr n = ((Nat.digits 10 n).map digitToChar).reverse := by
  rw [natToStr, if_neg h0, natToStrGo_eq_digits n n le_rfl]

lemma digitToChar_inj_fin : ∀ d e : Fin 10,
    digitToChar d.val = digitToChar e.val → d = e := by decide

lemma digitToChar_inj {d e : ℕ} (hd : d < 10) (he : e < 10)
    (h : digitToChar d = digitToChar e) : d = e := by
  have := digitToChar_inj_fin ⟨d, hd⟩ ⟨e, he⟩ h
  exact congrArg Fin.val this

lemma map_digitToChar_inj : ∀ (l1 l2 : List ℕ),
    (∀ d ∈ l1, d < 10) → (∀ d ∈ l2, d < 10) →
    l1.map digitToChar = l2.map digitToChar → l1 = l2 := by
  intro l1
  induction l1 with
  | nil =>
    intro l2 _ _ h
    cases l2 with
    | nil => rfl
    | cons d l2 => simp at h
  | cons d l1 ih =>
    intro l2 h1 h2 h
    cases l2 with
    | nil => simp at h
    | cons e l2 =>
      simp only [List.map_cons, List.cons.injEq] at h
      have hde : d = e :=
        digitToChar_inj (h1 d (by simp)) (h2 e (by simp)) h.1
      have : l1 = l2 :=
        ih l2 (fun x hx => h1 x (by simp [hx])) (fun x hx => h2 x (by simp [hx])) h.2
      rw [hde, this]

lemma digitToChar_ne_dash : ∀ d : ℕ, digitToChar d ≠ '-' := by
  intro d
  rcases d with _ | _ | _ | _ | _ | _ | _ | _ | _ | _ <;> simp [digitToChar]

lemma natToStr_ne_dash (n : ℕ) : ∀ c ∈ natToStr n, c ≠ '-' := by
  by_cases h0 : n = 0
  · subst h0
    intro c hc
    simp [natToStr] at hc
    subst hc
    decide
  · rw [natToStr_eq_digits n h0]
    intro c hc
    rw [List.mem_reverse, List.mem_map] at hc
    obtain ⟨d, _, rfl⟩ := hc
    exact digitToChar_ne_dash d

lemma natToStr_pos_ne_zero_str {n : ℕ} (h0 : n ≠ 0)
    (h : natToStr n = ['0']) : False := by
  rw [natToStr_eq_digits n h0] at h
  have hmap : (Nat.digits 10 n).map digitToChar = ['0'] := by
    have := congrArg List.reverse h
    simpa using this
  have hlen : (Nat.digits 10 n).length = 1 := by
    have := congrArg List.length hmap
    simpa using this
  obtain ⟨d, hdig⟩ := List.length_eq_one.mp hlen
  have hd10 : d < 10 :=
    Nat.digits_lt_base (by norm_num) (by rw [hdig]; simp)
  have hd0 : d = 0 := by
    rw [hdig] at hmap
    simp only [List.map_cons, List.map_nil] at hmap
    exact digitToChar_inj hd10 (by norm_num) (by simpa using hmap)
  have h1 := Nat.ofDigits_digits 10 n
  rw [hdig, hd0] at h1
  have h2 : Nat.ofDigits 10 ([0] : List ℕ) = 0 := by
    simp [Nat.ofDigits]
  exact h0 (by rw [← h1, h2])

lemma natToStr_inj {m n : ℕ} (h : natToStr m = natToStr n) : m = n := by
  by_cases hm : m = 0 <;> by_cases hn : n = 0
  · rw [hm, hn]
  · exfalso
    rw [hm] at h
    simp only [natToStr, if_pos rfl] at h
    exact natToStr_pos_ne_zero_str hn h.symm
  · exfalso
    rw [hn] at h
    simp only [natToStr, if_pos rfl] at h
    exact natToStr_pos_ne_zero_str hm h
  · rw [natToStr_eq_digits m hm, natToStr_eq_digits n hn] at h
    have hmap := List.reverse_injective h
    have hdig := map_digitToChar_inj _ _
      (fun d hd => Nat.digits_lt_base (by norm_num) hd)
      (fun d hd => Nat.digits_lt_base (by norm_num) hd) hmap
    calc m = Nat.ofDigits 10 (Nat.digits 10 m) := (Nat.ofDigits_digits 10 m).symm
      _ = Nat.ofDigits 10 (Nat.digits 10 n) := by rw [hdig]
      _ = n := Nat.ofDigits_digits 10 n

/-! ## Suffix-after-the-last-dash machinery -/

/-- Suffix of a text after its last dash (the whole text when there is
no dash). -/
def afterLastDash (l : List Char) : List Char :=
  (l.reverse.takeWhile (fun c => c != '-')).reverse

lemma takeWhile_all_append (p : Char → Bool) (xs : List Char) (y : Char)
    (zs : List Char) (hxs : ∀ c ∈ xs, p c = true) (hy : p y = false) :
    (xs ++ y :: zs).takeWhile p = xs := by
  induction xs with
  | nil => simp [List.takeWhile, hy]
  | cons c xs ih =>
    simp only [List.cons_append, List.takeWhile_cons,
      hxs c (by simp), if_true]
    rw [ih (fun x hx => hxs x (by simp [hx]))]

lemma afterLastDash_append (b ds : List Char) (h : ∀ c ∈ ds, c ≠ '-') :
    afterLastDash (b ++ '-' :: ds) = ds := by
  unfold afterLastDash
  have hrev : (b ++ '-' :: ds).reverse = ds.reverse ++ '-' :: b.reverse := by
    simp
  rw [hrev, takeWhile_all_append _ _ _ _
    (fun c hc => by
      simp only [bne_iff_ne, ne_eq]
      exact h c (List.mem_reverse.mp hc))
    (by simp), List.reverse_reverse]

lemma mkUniqueId_inj_idx {b1 b2 : List Char} {i j : ℕ}
    (h : mkUniqueId b1 i = mkUniqueId b2 j) : i = j := by
  have h1 : afterLastDash (mkUniqueId b1 i) = natToStr i :=
    afterLastDash_append b1 (natToStr i) (natToStr_ne_dash i)
  have h2 : afterLastDash (mkUniqueId b2 j) = natToStr j :=
    afterLastDash_append b2 (natToStr j) (natToStr_ne_dash j)
  apply natToStr_inj
  rw [← h1, ← h2, h]

/-! ## Structure of the block loops -/

lemma parseBlocks_length (pb : Nat → List Char → TestCase) :
    ∀ (i : Nat) (fs : List (List Char)),
      (parseBlocks pb i fs).length = fs.length := by
  intro i fs
  induction fs generalizing i with
  | nil => rfl
  | cons f fs ih => simp [parseBlocks, ih]

lemma parseBlocks_mem (pb : Nat → List Char → TestCase) :
    ∀ (i : Nat) (fs : List (List Char)) (tc : TestCase),
      tc ∈ parseBlocks pb i fs → ∃ j f, i ≤ j ∧ tc = pb j f := by
  intro i fs
  induction fs generalizing i with
  | nil => intro tc h; cases h
  | cons f fs ih =>
    intro tc h
    rw [parseBlocks] at h
    rcases List.mem_cons.mp h with rfl | h'
    · exact ⟨i, f, le_rfl, rfl⟩
    · obtain ⟨j, f', hij, rfl⟩ := ih (i + 1) _ h'
      exact ⟨j, f', by omega, rfl⟩

lemma parseBlocks_ids_pairwise (pb : Nat → List Char → TestCase)
    (hshape : ∀ (j : Nat) (f : List Char), ∃ b, (pb j f).id = mkUniqueId b j) :
    ∀ (i : Nat) (fs : List (List Char)),
      (parseBlocks pb i fs).Pairwise (fun a b => a.id ≠ b.id) := by
  intro i fs
  induction fs generalizing i with
  | nil => exact List.Pairwise.nil
  | cons f fs ih =>
    refine List.Pairwise.cons ?_ (ih (i + 1))
    intro tc htc heq
    obtain ⟨j, f', hij, rfl⟩ := parseBlocks_mem pb (i + 1) fs tc htc
    obtain ⟨b1, hb1⟩ := hshape i f
    obtain ⟨b2, hb2⟩ := hshape j f'
    rw [hb1, hb2] at heq
    have := mkUniqueId_inj_idx heq
    omega

lemma spuBlock_id_shape (j : Nat) (f : List Char) :
    ∃ b, (spuBlock j f).id = mkUniqueId b j :=
  ⟨(spuIdSearch (spuSection f)).getD ("Unknown-".data ++ natToStr j), rfl⟩

lemma tcvBlock_id_shape (j : Nat) (f : List Char) :
    ∃ b, (tcvBlock j f).id = mkUniqueId b j :=
  ⟨(tcvIdAt (tcvSection f)).getD ("Unknown-".data ++ natToStr j), rfl⟩

/-! ## Split length versus marker count -/

lemma splitByGo_length (delim : List Char → Option (List Char)) :
    ∀ (fuel : Nat) (t : List Char),
      (splitByGo delim fuel t).length = countByGo delim fuel t + 1 := by
  intro fuel
  induction fuel with
  | zero => intro t; rfl
  | succ fuel ih =>
    intro t
    cases t with
    | nil => rfl
    | cons c rest =>
      rw [splitByGo, countByGo]
      cases hd : delim (c :: rest) with
      | some r =>
        simp only [List.length_cons, ih r]
        omega
      | none =>
        have hne := ih rest
        cases hs : splitByGo delim fuel rest with
        | nil => rw [hs] at hne; simp at hne
        | cons f fs =>
          rw [hs] at hne
          simpa using hne

lemma splitBy_length (delim : List Char → Option (List Char)) (t : List Char) :
    (splitBy delim t).length = countBy delim t + 1 :=
  splitByGo_length delim t.length t

/-! ## Claim C1: block totality and field defaults -/

lemma jsOr_ne_nil {x y : List Char} (hy : y ≠ []) : jsOr x y ≠ [] := by
  unfold jsOr
  split
  · exact hy
  · assumption

lemma prefixed_title_ne_nil (b : List Char) : "Test Case ".data ++ b ≠ [] := by
  intro h
  have hlen := congrArg List.length h
  rw [List.length_append] at hlen
  have h10 : ("Test Case ".data).length = 10 := by decide
  rw [h10] at hlen
  simp at hlen

/-- Input refuting the non-empty-priority part of claim C1 for the
ScanProgressUI parser: a block with a Priority label carrying no text. -/
def spuPriorityCex : List Char := "### Test Case ID: TC_A\n* **Priority:**".data

/-- Claim C1, counterexample to the claim as stated.  On a block whose
Priority field is present but empty, the ScanProgressUI parser emits the
record with an empty priority (its Medium default applies only when the
label is absent, the record is pushed with the raw trimmed capture),
while title and type are still defaulted to non-empty values and the
block count matches the marker count. -/
theorem spu_labelled_empty_priority :
    (spuParseTestCases spuPriorityCex).map (fun tc => tc.priority) = [[]] ∧
    (spuParseTestCases spuPriorityCex).map (fun tc => tc.title) =
      ["Test Case TC_A".data] ∧
    countMarkers spuPriorityCex = 1 := by
  refine ⟨by decide, by decide, by decide⟩

/-- Claim C1, amended.  Both parsers return exactly one record per
block-start marker, in source order, and every record has a non-empty
title and type; the part_005 parser also guarantees a non-empty priority
(its Medium fallback also covers a present-but-empty field), whereas the
ScanProgressUI parser leaves priority empty when the label is present
with empty content (see the counterexample). -/
theorem parser_block_totality (md : List Char) :
    (spuParseTestCases md).length = countMarkers md ∧
    (tcvParseTestCases md).length = countMarkers md ∧
    (∀ tc ∈ spuParseTestCases md, tc.title ≠ [] ∧ tc.type ≠ []) ∧
    (∀ tc ∈ tcvParseTestCases md, tc.title ≠ [] ∧ tc.type ≠ [] ∧
      tc.priority ≠ []) := by
  refine ⟨?_, ?_, ?_, ?_⟩
  · rw [spuParseTestCases, parseBlocks_length, List.length_drop,
      splitBy_length]
    rfl
  · rw [tcvParseTestCases, parseBlocks_length, List.length_drop,
      splitBy_length]
    rfl
  · intro tc htc
    obtain ⟨j, f, _, rfl⟩ := parseBlocks_mem _ _ _ _ htc
    constructor
    · exact jsOr_ne_nil (prefixed_title_ne_nil _)
    · exact jsOr_ne_nil (by decide)
  · intro tc htc
    obtain ⟨j, f, _, rfl⟩ := parseBlocks_mem _ _ _ _ htc
    refine ⟨?_, ?_, ?_⟩
    · exact jsOr_ne_nil (prefixed_title_ne_nil _)
    · exact jsOr_ne_nil (by decide)
    · exact jsOr_ne_nil (by decide)

/-- Witness for parser_block_totality on a one-block document. -/
def totalityWitnessMd : List Char := "### Test Case ID: TC_B".data

theorem parser_block_totality_witness :
    (spuParseTestCases totalityWitnessMd).length = countMarkers totalityWitnessMd ∧
    (spuBlock 1 " TC_B".data).title ≠ [] ∧
    (tcvBlock 1 " TC_B".data).priority ≠ [] :=
  ⟨(parser_block_totality totalityWitnessMd).1,
   ((parser_block_totality totalityWitnessMd).2.2.1
     (spuBlock 1 " TC_B".data) (by decide)).1,
   ((parser_block_totality totalityWitnessMd).2.2.2
     (tcvBlock 1 " TC_B".data) (by decide)).2.2⟩

/-! ## Claim C9: id uniqueness -/

/-- Claim C9.  The ids of the records returned by either parser are
pairwise distinct: each id is the extracted (or generated) identifier
suffixed with a dash and the block's 1-based ordinal, the decimal
ordinal after the final dash determines the block, and ordinals are
distinct. -/
theorem parse_ids_pairwise_distinct (md : List Char) :
    (spuParseTestCases md).Pairwise (fun a b => a.id ≠ b.id) ∧
    (tcvParseTestCases md).Pairwise (fun a b => a.id ≠ b.id) :=
  ⟨parseBlocks_ids_pairwise spuBlock spuBlock_id_shape 1 _,
   parseBlocks_ids_pairwise tcvBlock tcvBlock_id_shape 1 _⟩

/-! ## Claim C8: non-empty preconditions and postconditions are never
dropped -/

lemma condItemsSPU_ne_nil {cap : List Char} (h : trimText cap ≠ []) :
    condItemsSPU cap ≠ [] := by
  simp only [condItemsSPU]
  split
  · simp
  · rename_i hcond
    rw [Bool.and_eq_true, Bool.not_eq_true'] at hcond
    intro hnil
    rcases Decidable.not_and_iff_or_not.mp hcond with h1 | h1
    · exact h1 (by simp [hnil])
    · exact h1 (by simpa [List.isEmpty_iff] using h)

/-- Claim C8.  In the ScanProgressUI parser, whenever the Preconditions
(or Postconditions) field matched with a capture whose trimmed text is
non-empty, the record's corresponding list is non-empty: either
splitting on bullet or numbered markers leaves an item, or the whole
trimmed field text becomes the single item. -/
theorem spu_conditions_not_dropped (i : Nat) (frag cap : List Char) :
    (spuPreconditionsField (spuSection frag) = some cap →
      trimText cap ≠ [] → (spuBlock i frag).preconditions ≠ []) ∧
    (spuPostconditionsField (spuSection frag) = some cap →
      trimText cap ≠ [] → (spuBlock i frag).postconditions ≠ []) := by
  constructor
  · intro h hne
    simp only [spuBlock, h]
    exact condItemsSPU_ne_nil hne
  · intro h hne
    simp only [spuBlock, h]
    exact condItemsSPU_ne_nil hne

/-- Witness fragment for spu_conditions_not_dropped. -/
def spuCondWitnessFrag : List Char :=
  " TC_C\n* **Preconditions:** User is logged in\n* **Postconditions:** Session remains".data

theorem spu_conditions_not_dropped_witness :
    (spuBlock 1 spuCondWitnessFrag).preconditions ≠ [] ∧
    (spuBlock 1 spuCondWitnessFrag).postconditions ≠ [] :=
  ⟨(spu_conditions_not_dropped 1 spuCondWitnessFrag
      "User is logged in".data).1 (by decide) (by decide),
   (spu_conditions_not_dropped 1 spuCondWitnessFrag
      "Session remains".data).2 (by decide) (by decide)⟩

/-! ## Claim C4: the numbered-line steps fallback -/

/-- Markdown whose single block has a Steps field with two numbered
lines and no Action or Expected Result pair. -/
def stepsFallbackMd : List Char :=
  "### Test Case ID: TC_A\n**Steps:**\n1. Click the button\n2. Verify the result".data

/-- Claim C4 names the part_005 fallback that should turn each numbered
line into a step with the Not specified sentinel.  The code cannot reach
it: the Steps regex is built from a string literal in which the capture
class collapsed to the letters s and S, so it fails to match a Steps
field containing any other character, the extraction yields nothing, and
the record's steps list is empty; the ScanProgressUI parser has no
fallback at all and also returns an empty list. -/
theorem steps_fallback_unreachable :
    (tcvParseTestCases stepsFallbackMd).map (fun tc => tc.steps) = [[]] ∧
    tcvStepsField (tcvSection
      " TC_A\n**Steps:**\n1. Click the button\n2. Verify the result".data) =
      none ∧
    (spuParseTestCases stepsFallbackMd).map (fun tc => tc.steps) = [[]] := by
  refine ⟨by decide, by decide, by decide⟩
